import Mathlib

/-!
A shallow embedding of `demoland_engine/predictors.py` and proofs about its two public
functions, `get_indicators` and `get_indicators_lsoa`.

Modelling choices:
* A pandas `DataFrame` keyed by spatial-unit identifier is an ordered list of
  (index label, row) pairs; the index is the list of labels in order.
* Numeric values are rationals; a cell that pandas would hold as NaN (for example after an
  unmatched left join) is `Option.none`.
* The external collaborators (the Feature Sampler `get_data`, the two pickled regressors,
  the accessibility engine, and the two cached parquet tables) are fields of an
  environment record `Env`; their table types `F`, `J`, `G` are opaque type parameters,
  exactly as the module treats them.
* The ambient randomness that the Feature Sampler consumes when no seed is given is an
  explicit extra `entropy : Nat` argument, so that determinism under a fixed seed is a
  real statement rather than a triviality of the embedding.
* A raised Python exception is `Except.error`; the pandas error on constructing a
  `DataFrame` from columns whose length differs from the index is modelled by an explicit
  length guard.
-/

namespace DemolandEngine

/-- One row of a scenario table: the four documented columns `signature_type`, `use`,
`greenspace`, `job_types`. Each cell is optional: an absent value (or the NaN fill of an
unmatched left join) is `none`. -/
structure ScenRow where
  signature_type : Option Int
  use : Option ℚ
  greenspace : Option ℚ
  job_types : Option ℚ
deriving DecidableEq, Repr

/-- The all-missing row that a pandas left join produces for an unmatched key. -/
def ScenRow.na : ScenRow := ⟨none, none, none, none⟩

/-- A scenario table: a pandas DataFrame keyed by a spatial-unit identifier, kept as
ordered (index label, row) pairs. -/
structure ScenarioDF where
  rows : List (String × ScenRow)
deriving DecidableEq, Repr

/-- The index of a scenario table, in row order (pandas `df.index`). -/
def ScenarioDF.index (df : ScenarioDF) : List String := df.rows.map Prod.fst

/-- Label lookup in a scenario table: the first row whose index label is `k`
(pandas `df.loc[k]` for a unique index). -/
def ScenarioDF.lookup (df : ScenarioDF) (k : String) : Option ScenRow :=
  (df.rows.find? (fun r => decide (r.1 = k))).map Prod.snd

/-- One row of the output indicator table: the four numeric indicator columns. -/
structure IndRow where
  air_quality : ℚ
  house_price : ℚ
  job_accessibility : ℚ
  greenspace_accessibility : ℚ
deriving DecidableEq, Repr

/-- An indicator table: a pandas DataFrame keyed by a spatial-unit identifier. -/
structure IndicatorDF where
  rows : List (String × IndRow)
deriving DecidableEq, Repr

/-- Label lookup in an indicator table: the first row whose index label is `k`. -/
def IndicatorDF.lookupRow (t : IndicatorDF) (k : String) : Option IndRow :=
  (t.rows.find? (fun r => decide (r.1 = k))).map Prod.snd

/-- The external collaborators of `predictors.py`, loaded once at import time.
`F`, `J`, `G` are the opaque feature/jobs/greenspace table types produced by the Feature
Sampler and consumed, untouched, by the predictors.

* `get_data` is `sampling.get_data(df, random_seed=...)`; the final `Nat` argument is the
  ambient randomness consumed when `random_seed` is `none` (with a fixed seed the sampler
  is documented to ignore it; that is a hypothesis of the determinism theorem, not an
  axiom of the model).
* `aq_predict` and `hp_predict` are `air_quality_predictor.predict` and
  `house_price_predictor.predict`: positional sequences of floats.
* `job_acc` and `gsp_acc` are the accessibility engine results for a supported mode, as
  series keyed by smaller-area identifier (what `.to_pandas()` exposes).
* `oa_ids` is the index of the cached `empty.parquet` reference table (all smaller
  areas); `lsoa_of` is the `lsoa11cd` column of the cached `oa_lsoa.parquet` mapping,
  which shares that index. -/
structure Env (F J G : Type) where
  get_data : ScenarioDF → Option Nat → Nat → F × J × G
  aq_predict : F → List ℚ
  hp_predict : F → List ℚ
  job_acc : J → String → String → ℚ
  gsp_acc : G → String → String → ℚ
  oa_ids : List String
  lsoa_of : String → String

variable {F J G : Type}

/-- The travel modes the accessibility engine supports
(docstring: mode is one of transit, car, bike, walk). -/
def validModes : List String := ["walk", "bike", "car", "transit"]

/-- Modelled from the spec: `accessibility.job_accessibility(jobs, mode)`. The engine
itself is the external `accessibility` artifact, absent from this repository; per the
spec it rejects an unsupported travel mode with an Unsupported Mode error and otherwise
returns a series of accessibility values keyed by smaller-area identifier. -/
def Env.job_accessibility (env : Env F J G) (jobs : J) (mode : String) :
    Except String (String → ℚ) :=
  if mode ∈ validModes then .ok (env.job_acc jobs mode) else .error "Unsupported Mode"

/-- Modelled from the spec: `accessibility.greenspace_accessibility(gsp, mode)`, the
greenspace counterpart of `Env.job_accessibility`, with the same mode validation. -/
def Env.greenspace_accessibility (env : Env F J G) (gsp : G) (mode : String) :
    Except String (String → ℚ) :=
  if mode ∈ validModes then .ok (env.gsp_acc gsp mode) else .error "Unsupported Mode"

/-- Assembly of `pd.DataFrame({...}, index=idx)` from four positional columns: row `i`
pairs label `idx[i]` with the `i`-th entry of each column. -/
def mkRows : List String → List ℚ → List ℚ → List ℚ → List ℚ → List (String × IndRow)
  | i :: is, a :: as, h :: hs, j :: js, g :: gs =>
      (i, ⟨a, h, j, g⟩) :: mkRows is as hs js gs
  | _, _, _, _, _ => []

/-- The Indicator Assembler `get_indicators(df, mode="walk", random_seed=None)`:
sample features, run the two regressors, run the accessibility engine under `mode`,
reindex the accessibility series by `df.index`, and assemble the output table on
`df.index`. Errors propagate; the final guard is the pandas error when a column length
does not match the index length. -/
def get_indicators (env : Env F J G) (df : ScenarioDF) (mode : String)
    (random_seed : Option Nat) (entropy : Nat) : Except String IndicatorDF :=
  let t := env.get_data df random_seed entropy
  let aq := env.aq_predict t.1
  let hp := env.hp_predict t.1
  match env.job_accessibility t.2.1 mode with
  | .error err => .error err
  | .ok jaFn =>
      match env.greenspace_accessibility t.2.2 mode with
      | .error err => .error err
      | .ok gsFn =>
          if aq.length = df.index.length ∧ hp.length = df.index.length then
            .ok ⟨mkRows df.index aq hp (df.index.map jaFn) (df.index.map gsFn)⟩
          else .error "Length of values does not match length of index"

/-- The smaller-area expansion built inside `get_indicators_lsoa`:
`empty.assign(lsoa=lsoa_oa.lsoa11cd)[["lsoa"]].merge(df, left_on="lsoa",
right_index=True, how="left").drop(columns="lsoa")`, one smaller area at a time: all
input rows whose index label equals the larger-area code of that area, or a single
all-missing row when there is none (pandas left join). -/
def mergedBlock (env : Env F J G) (df : ScenarioDF) (oa : String) :
    List (String × ScenRow) :=
  let ms := df.rows.filter (fun r => decide (r.1 = env.lsoa_of oa))
  if ms.isEmpty then [(oa, ScenRow.na)] else ms.map (fun m => (oa, m.2))

/-- The rows of the smaller-area expansion: the blocks of all smaller areas of the
reference table, in its order. -/
def mergedTable (env : Env F J G) (df : ScenarioDF) : ScenarioDF :=
  ⟨env.oa_ids.flatMap (mergedBlock env df)⟩

/-- Column-wise unweighted arithmetic mean of a list of indicator rows: one group of
`groupby(...).mean()`. -/
def meanRow (l : List IndRow) : IndRow :=
  { air_quality := (l.map IndRow.air_quality).sum / (l.length : ℚ)
    house_price := (l.map IndRow.house_price).sum / (l.length : ℚ)
    job_accessibility := (l.map IndRow.job_accessibility).sum / (l.length : ℚ)
    greenspace_accessibility := (l.map IndRow.greenspace_accessibility).sum / (l.length : ℚ) }

/-- Evaluation of `frame.groupby(key).mean()` over key-tagged rows: the output is indexed
by the distinct key values in sorted order (pandas `groupby` sorts group keys) and each
output row is the unweighted mean of the rows carrying that key. -/
def groupbyMean (tagged : List (String × IndRow)) : IndicatorDF :=
  let keys := List.insertionSort (· ≤ ·) ((tagged.map Prod.fst).dedup)
  ⟨keys.map (fun k =>
    (k, meanRow ((tagged.filter (fun t => decide (t.1 = k))).map Prod.snd)))⟩

/-- The Areal Aggregator `get_indicators_lsoa(df)`: expand the larger-area scenario onto
all smaller areas by a left join, run `get_indicators` with the default mode and no
explicit seed, tag each smaller-area result with its larger-area code
(`assign(lsoa=lsoa_oa.lsoa11cd)`, an index-aligned assignment), and aggregate by
`groupby("lsoa").mean()`. Errors from the assembler propagate. -/
def get_indicators_lsoa (env : Env F J G) (df : ScenarioDF) (entropy : Nat) :
    Except String IndicatorDF :=
  match get_indicators env (mergedTable env df) "walk" none entropy with
  | .error err => .error err
  | .ok ind => .ok (groupbyMean (ind.rows.map (fun r => (env.lsoa_of r.1, r.2))))

/-- The Areal Aggregator exactly as the spec words it: one row per smaller area whose
scenario columns come from the matching larger-area input row (all missing when that
larger-area identifier is absent from the input), then the Indicator Assembler with
default mode and no explicit seed, then group by larger-area identifier and take the
unweighted arithmetic mean of each indicator column. Stated for comparison with the
source-derived `get_indicators_lsoa`. -/
def get_indicators_lsoa_spec (env : Env F J G) (df : ScenarioDF) (entropy : Nat) :
    Except String IndicatorDF :=
  let expanded : ScenarioDF :=
    ⟨env.oa_ids.map (fun oa => (oa, (df.lookup (env.lsoa_of oa)).getD ScenRow.na))⟩
  match get_indicators env expanded "walk" none entropy with
  | .error err => .error err
  | .ok ind => .ok (groupbyMean (ind.rows.map (fun r => (env.lsoa_of r.1, r.2))))

/-- The input scenario table restricted to rows whose index label occurs as a
larger-area code in the mapping table. -/
def restrictToMapping (env : Env F J G) (df : ScenarioDF) : ScenarioDF :=
  ⟨df.rows.filter (fun r => decide (r.1 ∈ env.oa_ids.map env.lsoa_of))⟩

/-- The number of distinct larger-area identifiers in the Area-Mapping Table. -/
def mappingLsoaCount (env : Env F J G) : Nat :=
  ((env.oa_ids.map env.lsoa_of).dedup).length

/-- A concrete one-area environment: constant sampler, constant predictors, a single
smaller area `oa1` belonging to larger area `ls1`. Used to exercise the theorems on
concrete inputs. -/
def envW : Env Unit Unit Unit where
  get_data := fun _ _ _ => ((), (), ())
  aq_predict := fun _ => [2]
  hp_predict := fun _ => [3]
  job_acc := fun _ _ _ => 5
  gsp_acc := fun _ _ _ => 7
  oa_ids := ["oa1"]
  lsoa_of := fun _ => "ls1"

/-- A concrete one-row scenario table keyed by `ls1`. -/
def dfW : ScenarioDF := ⟨[("ls1", ⟨some 6, some 0, some (1/5), some (1/2)⟩)]⟩

/-- The indicator row the concrete environment produces for every area. -/
def rowW : IndRow := ⟨2, 3, 5, 7⟩

theorem mkRows_map_fst : ∀ (idx : List String) (a h j g : List ℚ),
    a.length = idx.length → h.length = idx.length → j.length = idx.length →
    g.length = idx.length → (mkRows idx a h j g).map Prod.fst = idx
  | [], a, h, j, g, _, _, _, _ => rfl
  | i :: is, a, h, j, g, ha, hh, hj, hg => by
    cases a with
    | nil => simp at ha
    | cons a0 as =>
      cases h with
      | nil => simp at hh
      | cons h0 hs =>
        cases j with
        | nil => simp at hj
        | cons j0 js =>
          cases g with
          | nil => simp at hg
          | cons g0 gs =>
            simp only [mkRows, List.map_cons, List.cons.injEq, true_and]
            exact mkRows_map_fst is as hs js gs (by simpa using ha) (by simpa using hh)
              (by simpa using hj) (by simpa using hg)

theorem mkRows_map_aq : ∀ (idx : List String) (a h j g : List ℚ),
    a.length = idx.length → h.length = idx.length → j.length = idx.length →
    g.length = idx.length →
    (mkRows idx a h j g).map (fun r => r.2.air_quality) = a
  | [], a, h, j, g, ha, _, _, _ => by
    cases a with
    | nil => rfl
    | cons a0 as => simp at ha
  | i :: is, a, h, j, g, ha, hh, hj, hg => by
    cases a with
    | nil => simp at ha
    | cons a0 as =>
      cases h with
      | nil => simp at hh
      | cons h0 hs =>
        cases j with
        | nil => simp at hj
        | cons j0 js =>
          cases g with
          | nil => simp at hg
          | cons g0 gs =>
            simp only [mkRows, List.map_cons, List.cons.injEq, true_and]
            exact mkRows_map_aq is as hs js gs (by simpa using ha) (by simpa using hh)
              (by simpa using hj) (by simpa using hg)

theorem mkRows_map_hp : ∀ (idx : List String) (a h j g : List ℚ),
    a.length = idx.length → h.length = idx.length → j.length = idx.length →
    g.length = idx.length →
    (mkRows idx a h j g).map (fun r => r.2.house_price) = h
  | [], a, h, j, g, _, hh, _, _ => by
    cases h with
    | nil => rfl
    | cons h0 hs => simp at hh
  | i :: is, a, h, j, g, ha, hh, hj, hg => by
    cases a with
    | nil => simp at ha
    | cons a0 as =>
      cases h with
      | nil => simp at hh
      | cons h0 hs =>
        cases j with
        | nil => simp at hj
        | cons j0 js =>
          cases g with
          | nil => simp at hg
          | cons g0 gs =>
            simp only [mkRows, List.map_cons, List.cons.injEq, true_and]
            exact mkRows_map_hp is as hs js gs (by simpa using ha) (by simpa using hh)
              (by simpa using hj) (by simpa using hg)

theorem mkRows_map_key_ja (jf gf : String → ℚ) : ∀ (idx : List String) (a h : List ℚ),
    a.length = idx.length → h.length = idx.length →
    (mkRows idx a h (idx.map jf) (idx.map gf)).map
        (fun r => (r.1, r.2.job_accessibility)) =
      idx.map (fun k => (k, jf k))
  | [], _, _, _, _ => rfl
  | i :: is, a, h, ha, hh => by
    cases a with
    | nil => simp at ha
    | cons a0 as =>
      cases h with
      | nil => simp at hh
      | cons h0 hs =>
        simp only [List.map_cons, mkRows, List.cons.injEq, true_and]
        exact mkRows_map_key_ja jf gf is as hs (by simpa using ha) (by simpa using hh)

theorem mkRows_map_key_gs (jf gf : String → ℚ) : ∀ (idx : List String) (a h : List ℚ),
    a.length = idx.length → h.length = idx.length →
    (mkRows idx a h (idx.map jf) (idx.map gf)).map
        (fun r => (r.1, r.2.greenspace_accessibility)) =
      idx.map (fun k => (k, gf k))
  | [], _, _, _, _ => rfl
  | i :: is, a, h, ha, hh => by
    cases a with
    | nil => simp at ha
    | cons a0 as =>
      cases h with
      | nil => simp at hh
      | cons h0 hs =>
        simp only [List.map_cons, mkRows, List.cons.injEq, true_and]
        exact mkRows_map_key_gs jf gf is as hs (by simpa using ha) (by simpa using hh)

theorem get_indicators_eq_ok {env : Env F J G} {df : ScenarioDF} {mode : String}
    {s : Option Nat} {e : Nat} {out : IndicatorDF}
    (h : get_indicators env df mode s e = .ok out) :
    mode ∈ validModes ∧
    (env.aq_predict (env.get_data df s e).1).length = df.index.length ∧
    (env.hp_predict (env.get_data df s e).1).length = df.index.length ∧
    out = ⟨mkRows df.index (env.aq_predict (env.get_data df s e).1)
      (env.hp_predict (env.get_data df s e).1)
      (df.index.map (env.job_acc (env.get_data df s e).2.1 mode))
      (df.index.map (env.gsp_acc (env.get_data df s e).2.2 mode))⟩ := by
  by_cases hm : mode ∈ validModes
  · simp only [get_indicators, Env.job_accessibility, Env.greenspace_accessibility,
      if_pos hm] at h
    by_cases hlen : (env.aq_predict (env.get_data df s e).1).length = df.index.length ∧
        (env.hp_predict (env.get_data df s e).1).length = df.index.length
    · rw [if_pos hlen] at h
      cases h
      exact ⟨hm, hlen.1, hlen.2, rfl⟩
    · rw [if_neg hlen] at h
      exact absurd h (by simp)
  · simp only [get_indicators, Env.job_accessibility, Env.greenspace_accessibility,
      if_neg hm] at h
    exact absurd h (by simp)

theorem flatMap_congr_mem {α β : Type} (f g : α → List β) :
    ∀ l : List α, (∀ a ∈ l, f a = g a) → l.flatMap f = l.flatMap g
  | [], _ => rfl
  | a :: l, hfg => by
    rw [List.flatMap_cons, List.flatMap_cons, hfg a (List.mem_cons_self a l),
      flatMap_congr_mem f g l (fun x hx => hfg x (List.mem_cons_of_mem a hx))]

theorem flatMap_eq_map_of_singleton {α β : Type} (f : α → List β) (g : α → β)
    (hf : ∀ a, f a = [g a]) : ∀ l : List α, l.flatMap f = l.map g
  | [] => rfl
  | a :: l => by
    rw [List.flatMap_cons, hf a, List.map_cons,
      flatMap_eq_map_of_singleton f g hf l]
    rfl

theorem filter_key_of_nodup {β : Type} :
    ∀ (l : List (String × β)), (l.map Prod.fst).Nodup → ∀ k : String,
      l.filter (fun r => decide (r.1 = k)) =
        ((l.find? (fun r => decide (r.1 = k))).map (fun r => (k, r.2))).toList
  | [], _, _ => rfl
  | r :: l, hnd, k => by
    obtain ⟨hr, hl⟩ := List.nodup_cons.mp hnd
    by_cases hk : r.1 = k
    · have hnil : l.filter (fun x => decide (x.1 = k)) = [] :=
        List.filter_eq_nil_iff.mpr (fun x hx => by
          simp only [decide_eq_true_eq]
          intro hxk
          exact hr (by rw [hk, ← hxk]; exact List.mem_map_of_mem Prod.fst hx))
      rw [List.filter_cons_of_pos (by simpa using hk),
        List.find?_cons_of_pos _ (by simpa using hk), hnil]
      cases r
      simp_all
    · rw [List.filter_cons_of_neg (by simpa using hk),
        List.find?_cons_of_neg _ (by simpa using hk)]
      exact filter_key_of_nodup l hl k

theorem mergedBlock_eq_of_nodup (env : Env F J G) (df : ScenarioDF)
    (hnd : df.index.Nodup) (oa : String) :
    mergedBlock env df oa = [(oa, (df.lookup (env.lsoa_of oa)).getD ScenRow.na)] := by
  rw [mergedBlock, ScenarioDF.lookup, filter_key_of_nodup df.rows hnd (env.lsoa_of oa)]
  cases hf : df.rows.find? (fun r => decide (r.1 = env.lsoa_of oa)) with
  | none => rfl
  | some r => rfl

theorem mergedTable_eq_of_nodup (env : Env F J G) (df : ScenarioDF)
    (hnd : df.index.Nodup) :
    mergedTable env df =
      ⟨env.oa_ids.map (fun oa => (oa, (df.lookup (env.lsoa_of oa)).getD ScenRow.na))⟩ := by
  rw [mergedTable]
  exact congrArg ScenarioDF.mk (flatMap_eq_map_of_singleton _ _
    (mergedBlock_eq_of_nodup env df hnd) env.oa_ids)

theorem mergedBlock_key {env : Env F J G} {df : ScenarioDF} {oa : String}
    {p : String × ScenRow} (hp : p ∈ mergedBlock env df oa) : p.1 = oa := by
  rw [mergedBlock] at hp
  by_cases he : (df.rows.filter (fun r => decide (r.1 = env.lsoa_of oa))).isEmpty
  · rw [if_pos he] at hp
    rw [List.mem_singleton.mp hp]
  · rw [if_neg he] at hp
    obtain ⟨m, -, rfl⟩ := List.mem_map.mp hp
    rfl

theorem mergedBlock_nonempty (env : Env F J G) (df : ScenarioDF) (oa : String) :
    ∃ p, p ∈ mergedBlock env df oa := by
  rw [mergedBlock]
  cases hf : df.rows.filter (fun r => decide (r.1 = env.lsoa_of oa)) with
  | nil => exact ⟨(oa, ScenRow.na), by simp [hf]⟩
  | cons m ms => exact ⟨(oa, m.2), by simp [hf]⟩

theorem mergedTable_index_mem (env : Env F J G) (df : ScenarioDF) (x : String) :
    x ∈ (mergedTable env df).index ↔ x ∈ env.oa_ids := by
  simp only [mergedTable, ScenarioDF.index, List.mem_map, List.mem_flatMap]
  constructor
  · rintro ⟨p, ⟨oa, hoa, hp⟩, rfl⟩
    rw [mergedBlock_key hp]
    exact hoa
  · intro hx
    obtain ⟨p, hp⟩ := mergedBlock_nonempty env df x
    exact ⟨p, ⟨x, hx, hp⟩, mergedBlock_key hp⟩

/-- C2: on a valid input (one row per larger-area identifier), `get_indicators_lsoa`
computes exactly what the spec describes: a left join expanding the input to one row per
smaller area (missing scenario values where the larger-area identifier is absent), the
Indicator Assembler with default mode and no explicit seed, then unweighted per-column
means grouped by larger-area identifier. -/
theorem get_indicators_lsoa_follows_spec (env : Env F J G) (df : ScenarioDF) (e : Nat)
    (hnd : df.index.Nodup) :
    get_indicators_lsoa env df e = get_indicators_lsoa_spec env df e := by
  rw [get_indicators_lsoa, get_indicators_lsoa_spec, mergedTable_eq_of_nodup env df hnd]

/-- Witness for C2: the concrete environment on a one-row table. -/
theorem get_indicators_lsoa_follows_spec_witness :
    dfW.index.Nodup ∧ get_indicators_lsoa envW dfW 0 = get_indicators_lsoa_spec envW dfW 0 :=
  ⟨by decide, get_indicators_lsoa_follows_spec envW dfW 0 (by decide)⟩

/-- C10: input rows whose index label is not a larger-area code of the mapping table are
ignored: dropping them changes nothing about the result, so they contribute to no output
row and cause no error. -/
theorem get_indicators_lsoa_ignores_unmapped_rows (env : Env F J G) (df : ScenarioDF)
    (e : Nat) :
    get_indicators_lsoa env df e = get_indicators_lsoa env (restrictToMapping env df) e := by
  have hmerged : mergedTable env df = mergedTable env (restrictToMapping env df) := by
    rw [mergedTable, mergedTable]
    refine congrArg ScenarioDF.mk (flatMap_congr_mem _ _ env.oa_ids (fun oa hoa => ?_))
    have hfil : (restrictToMapping env df).rows.filter
          (fun r => decide (r.1 = env.lsoa_of oa)) =
        df.rows.filter (fun r => decide (r.1 = env.lsoa_of oa)) := by
      rw [restrictToMapping, List.filter_filter]
      refine List.filter_congr (fun r hr => ?_)
      by_cases hk : r.1 = env.lsoa_of oa
      · have hmem : r.1 ∈ env.oa_ids.map env.lsoa_of := by
          rw [hk]; exact List.mem_map_of_mem env.lsoa_of hoa
        simp only [hk, hmem]
        simp only [List.mem_map] at hmem ⊢
        simp [hk]
        exact ⟨oa, hoa, rfl⟩
      · simp [hk]
    rw [mergedBlock, mergedBlock, hfil]
  rw [get_indicators_lsoa, get_indicators_lsoa, hmerged]

theorem get_indicators_lsoa_eq_ok {env : Env F J G} {df : ScenarioDF} {e : Nat}
    {out : IndicatorDF} (h : get_indicators_lsoa env df e = .ok out) :
    ∃ ind, get_indicators env (mergedTable env df) "walk" none e = .ok ind ∧
      out = groupbyMean (ind.rows.map (fun r => (env.lsoa_of r.1, r.2))) := by
  rw [get_indicators_lsoa] at h
  cases hind : get_indicators env (mergedTable env df) "walk" none e with
  | error err =>
      rw [hind] at h
      exact absurd h (by simp)
  | ok ind =>
      rw [hind] at h
      simp only [Except.ok.injEq] at h
      exact ⟨ind, rfl, h.symm⟩

/-- C5: whenever `get_indicators_lsoa` returns a table, its row count equals the number
of distinct larger-area identifiers in the Area-Mapping Table, whatever larger-area
identifiers the input table mentions. -/
theorem get_indicators_lsoa_row_count (env : Env F J G) (df : ScenarioDF) (e : Nat)
    (out : IndicatorDF) (h : get_indicators_lsoa env df e = .ok out) :
    out.rows.length = mappingLsoaCount env := by
  obtain ⟨ind, hind, hout⟩ := get_indicators_lsoa_eq_ok h
  obtain ⟨-, ha, hh, hval⟩ := get_indicators_eq_ok hind
  have hidx : ind.rows.map Prod.fst = (mergedTable env df).index := by
    rw [hval]
    exact mkRows_map_fst _ _ _ _ _ ha hh (by simp) (by simp)
  subst hout
  rw [groupbyMean]
  simp only [List.length_map]
  rw [(List.perm_insertionSort (α := String) (· ≤ ·)
    (((ind.rows.map (fun r => (env.lsoa_of r.1, r.2))).map Prod.fst).dedup)).length_eq]
  have hkeys : (ind.rows.map (fun r => (env.lsoa_of r.1, r.2))).map Prod.fst =
      (mergedTable env df).index.map env.lsoa_of := by
    rw [List.map_map, ← hidx, List.map_map]
    rfl
  rw [hkeys, mappingLsoaCount]
  refine List.Perm.length_eq ?_
  refine (List.perm_ext_iff_of_nodup (List.nodup_dedup _) (List.nodup_dedup _)).mpr ?_
  intro y
  simp only [List.mem_dedup, List.mem_map]
  constructor
  · rintro ⟨x, hx, rfl⟩
    exact ⟨x, (mergedTable_index_mem env df x).mp hx, rfl⟩
  · rintro ⟨x, hx, rfl⟩
    exact ⟨x, (mergedTable_index_mem env df x).mpr hx, rfl⟩

/-- Witness for C5: the concrete environment has one larger area in its mapping and the
aggregated table has one row. -/
theorem get_indicators_lsoa_row_count_witness :
    get_indicators_lsoa envW dfW 0 = .ok (groupbyMean [("ls1", rowW)]) ∧
    (groupbyMean [("ls1", rowW)]).rows.length = mappingLsoaCount envW :=
  ⟨rfl, get_indicators_lsoa_row_count envW dfW 0 (groupbyMean [("ls1", rowW)]) rfl⟩

theorem meanRow_singleton (x : IndRow) : meanRow [x] = x := by
  cases x
  simp [meanRow]

theorem rows_filter_lsoa_key (env : Env F J G) (L : String) :
    ∀ l : List (String × IndRow),
      (l.filter (fun r => decide (env.lsoa_of r.1 = L))).map Prod.fst =
        (l.map Prod.fst).filter (fun k => decide (env.lsoa_of k = L))
  | [] => rfl
  | r :: l => by
    by_cases hp : env.lsoa_of r.1 = L <;>
      simp [List.filter_cons, hp, rows_filter_lsoa_key env L l]

theorem tagged_filter_key (env : Env F J G) (L : String) :
    ∀ l : List (String × IndRow),
      (l.map (fun r => (env.lsoa_of r.1, r.2))).filter (fun t => decide (t.1 = L)) =
        (l.filter (fun r => decide (env.lsoa_of r.1 = L))).map
          (fun r => (env.lsoa_of r.1, r.2))
  | [] => rfl
  | r :: l => by
    by_cases hp : env.lsoa_of r.1 = L <;>
      simp [List.filter_cons, hp, tagged_filter_key env L l]

theorem find?_map_pair_self {β : Type} (f : String → β) :
    ∀ (ks : List String) (L : String), L ∈ ks →
      (ks.map (fun k => (k, f k))).find? (fun r => decide (r.1 = L)) = some (L, f L)
  | [], _, h => absurd h (List.not_mem_nil _)
  | k :: ks, L, h => by
    by_cases hk : k = L
    · subst hk
      rw [List.map_cons, List.find?_cons_of_pos _ (by simp)]
    · rw [List.map_cons, List.find?_cons_of_neg _ (by simpa using hk)]
      have hL : L ∈ ks := by
        rcases List.mem_cons.mp h with h | h
        · exact absurd h.symm hk
        · exact h
      exact find?_map_pair_self f ks L hL

theorem lookup_groupbyMean (tagged : List (String × IndRow)) (L : String)
    (hL : L ∈ tagged.map Prod.fst) :
    (groupbyMean tagged).lookupRow L =
      some (meanRow ((tagged.filter (fun t => decide (t.1 = L))).map Prod.snd)) := by
  have hLk : L ∈ List.insertionSort (· ≤ ·) ((tagged.map Prod.fst).dedup) :=
    (List.perm_insertionSort _ _).mem_iff.mpr (List.mem_dedup.mpr hL)
  simp only [groupbyMean, IndicatorDF.lookupRow]
  rw [find?_map_pair_self _ _ L hLk]
  rfl

/-- C6: for a larger area whose mapping contains exactly one smaller area, the
aggregated row that `get_indicators_lsoa` returns for it equals the indicator row that
`get_indicators` returns for that single smaller area: the mean of one element is the
element. -/
theorem get_indicators_lsoa_singleton_mean (env : Env F J G) (df : ScenarioDF) (e : Nat)
    (L oa : String) (outL outO : IndicatorDF)
    (hnd : df.index.Nodup)
    (hone : env.oa_ids.filter (fun o => decide (env.lsoa_of o = L)) = [oa])
    (hlsoa : get_indicators_lsoa env df e = .ok outL)
    (houtO : get_indicators env (mergedTable env df) "walk" none e = .ok outO) :
    outL.lookupRow L = outO.lookupRow oa := by
  have hoaFil : oa ∈ env.oa_ids.filter (fun o => decide (env.lsoa_of o = L)) := by
    rw [hone]
    exact List.mem_singleton_self oa
  have hoaIn : oa ∈ env.oa_ids := (List.mem_filter.mp hoaFil).1
  have hoaL : env.lsoa_of oa = L := by
    have := (List.mem_filter.mp hoaFil).2
    simpa using this
  have huniq : ∀ o, o ∈ env.oa_ids → env.lsoa_of o = L → o = oa := by
    intro o ho hoL
    have : o ∈ env.oa_ids.filter (fun x => decide (env.lsoa_of x = L)) :=
      List.mem_filter.mpr ⟨ho, by simpa using hoL⟩
    rw [hone] at this
    exact List.mem_singleton.mp this
  obtain ⟨ind, hind, houtL⟩ := get_indicators_lsoa_eq_ok hlsoa
  rw [hind] at houtO
  simp only [Except.ok.injEq] at houtO
  subst houtO
  obtain ⟨-, ha, hh, hval⟩ := get_indicators_eq_ok hind
  have hidx : ind.rows.map Prod.fst = (mergedTable env df).index := by
    rw [hval]
    exact mkRows_map_fst _ _ _ _ _ ha hh (by simp) (by simp)
  have hmidx : (mergedTable env df).index = env.oa_ids := by
    rw [mergedTable_eq_of_nodup env df hnd, ScenarioDF.index, List.map_map]
    exact List.map_id'' (fun _ => rfl) env.oa_ids
  have hkeys : ind.rows.map Prod.fst = env.oa_ids := hidx.trans hmidx
  -- the unique indicator row keyed by the single smaller area
  have hmapfil : (ind.rows.filter (fun r => decide (env.lsoa_of r.1 = L))).map Prod.fst =
      [oa] := by
    rw [rows_filter_lsoa_key env L ind.rows, hkeys]
    exact hone
  obtain ⟨r0, hr0, hr0k⟩ : ∃ r0 : String × IndRow,
      ind.rows.filter (fun r => decide (env.lsoa_of r.1 = L)) = [r0] ∧ r0.1 = oa := by
    cases hf : ind.rows.filter (fun r => decide (env.lsoa_of r.1 = L)) with
    | nil => rw [hf] at hmapfil; simp at hmapfil
    | cons r0 rest =>
      rw [hf] at hmapfil
      cases rest with
      | nil =>
        refine ⟨r0, rfl, ?_⟩
        simpa using hmapfil
      | cons r1 rest2 => simp at hmapfil
  have hr0mem : r0 ∈ ind.rows.filter (fun r => decide (env.lsoa_of r.1 = L)) := by
    rw [hr0]
    exact List.mem_singleton_self r0
  have hr0L : env.lsoa_of r0.1 = L := by
    have := (List.mem_filter.mp hr0mem).2
    simpa using this
  -- the smaller-area lookup
  have hpred : ∀ r ∈ ind.rows,
      (decide (r.1 = oa) : Bool) = decide (env.lsoa_of r.1 = L) := by
    intro r hr
    have hrIn : r.1 ∈ env.oa_ids := by
      rw [← hkeys]
      exact List.mem_map_of_mem Prod.fst hr
    by_cases hro : r.1 = oa
    · simp [hro, hoaL]
    · have hnL : ¬ env.lsoa_of r.1 = L := fun hL => hro (huniq r.1 hrIn hL)
      simp [hro, hnL]
  have hlookO : ind.lookupRow oa = some r0.2 := by
    rw [IndicatorDF.lookupRow, ← List.filter_head?, List.filter_congr hpred, hr0]
    rfl
  -- the larger-area lookup
  have hLmem : L ∈ (ind.rows.map (fun r => (env.lsoa_of r.1, r.2))).map Prod.fst := by
    have hpair : ((env.lsoa_of r0.1, r0.2) : String × IndRow) ∈
        ind.rows.map (fun r => (env.lsoa_of r.1, r.2)) :=
      List.mem_map_of_mem _ (List.mem_of_mem_filter hr0mem)
    have := List.mem_map_of_mem Prod.fst hpair
    simpa [hr0L] using this
  have htagfil : (ind.rows.map (fun r => (env.lsoa_of r.1, r.2))).filter
      (fun t => decide (t.1 = L)) = [(env.lsoa_of r0.1, r0.2)] := by
    rw [tagged_filter_key env L ind.rows, hr0]
    rfl
  subst houtL
  rw [lookup_groupbyMean _ L hLmem, htagfil]
  simp only [List.map_cons, List.map_nil, meanRow_singleton]
  exact hlookO.symm

/-- Witness for C6: the concrete environment maps the single smaller area `oa1` to the
larger area `ls1`. -/
theorem get_indicators_lsoa_singleton_mean_witness :
    dfW.index.Nodup ∧
    envW.oa_ids.filter (fun o => decide (envW.lsoa_of o = "ls1")) = ["oa1"] ∧
    get_indicators_lsoa envW dfW 0 = .ok (groupbyMean [("ls1", rowW)]) ∧
    get_indicators envW (mergedTable envW dfW) "walk" none 0 = .ok ⟨[("oa1", rowW)]⟩ ∧
    (groupbyMean [("ls1", rowW)]).lookupRow "ls1" =
      (IndicatorDF.mk [("oa1", rowW)]).lookupRow "oa1" :=
  ⟨by decide, by decide, rfl, rfl,
    get_indicators_lsoa_singleton_mean envW dfW 0 "ls1" "oa1"
      (groupbyMean [("ls1", rowW)]) ⟨[("oa1", rowW)]⟩ (by decide) (by decide) rfl rfl⟩

/-- C1: whenever `get_indicators` returns a table, that table has exactly the index of
the input scenario table: the same spatial-unit labels in the same order. -/
theorem get_indicators_preserves_index (env : Env F J G) (df : ScenarioDF) (mode : String)
    (s : Option Nat) (e : Nat) (out : IndicatorDF)
    (h : get_indicators env df mode s e = .ok out) :
    out.rows.map Prod.fst = df.index := by
  obtain ⟨-, ha, hh, rfl⟩ := get_indicators_eq_ok h
  exact mkRows_map_fst _ _ _ _ _ ha hh (by simp) (by simp)

/-- Witness for C1: the concrete environment on a one-row table. -/
theorem get_indicators_preserves_index_witness :
    get_indicators envW dfW "walk" none 0 = .ok ⟨[("ls1", rowW)]⟩ ∧
    (IndicatorDF.mk [("ls1", rowW)]).rows.map Prod.fst = dfW.index :=
  ⟨rfl, get_indicators_preserves_index envW dfW "walk" none 0 ⟨[("ls1", rowW)]⟩ rfl⟩

/-- C3: an unsupported accessibility mode makes `get_indicators` fail with the
Unsupported Mode error; no table is returned. -/
theorem get_indicators_unsupported_mode (env : Env F J G) (df : ScenarioDF)
    (mode : String) (s : Option Nat) (e : Nat) (hm : mode ∉ validModes) :
    get_indicators env df mode s e = .error "Unsupported Mode" := by
  simp only [get_indicators, Env.job_accessibility, if_neg hm]

/-- Witness for C3: the spaceship mode of the spec scenario. -/
theorem get_indicators_unsupported_mode_witness :
    "spaceship" ∉ validModes ∧
    get_indicators envW dfW "spaceship" none 0 = .error "Unsupported Mode" :=
  ⟨by decide, get_indicators_unsupported_mode envW dfW "spaceship" none 0 (by decide)⟩

/-- C4: with a fixed random seed, `get_indicators` is deterministic: provided the
Feature Sampler ignores ambient randomness once a seed is fixed (its documented
contract), two calls with the same table, mode and seed return identical results. -/
theorem get_indicators_deterministic_given_seed (env : Env F J G) (df : ScenarioDF)
    (mode : String) (s : Nat) (e1 e2 : Nat)
    (hdet : ∀ a b : Nat, env.get_data df (some s) a = env.get_data df (some s) b) :
    get_indicators env df mode (some s) e1 = get_indicators env df mode (some s) e2 := by
  simp only [get_indicators, hdet e1 e2]

/-- Witness for C4: the concrete environment, whose sampler is constant. -/
theorem get_indicators_deterministic_given_seed_witness :
    (∀ a b : Nat, envW.get_data dfW (some 1) a = envW.get_data dfW (some 1) b) ∧
    get_indicators envW dfW "walk" (some 1) 0 = get_indicators envW dfW "walk" (some 1) 9 :=
  ⟨fun _ _ => rfl,
    get_indicators_deterministic_given_seed envW dfW "walk" 1 0 9 (fun _ _ => rfl)⟩

/-- C7: the accessibility series are reindexed by the scenario index before assembly:
row k of the output carries exactly the engine values keyed by k, in the input row
order, for both the job and the greenspace accessibility columns. -/
theorem get_indicators_accessibility_reindexed (env : Env F J G) (df : ScenarioDF)
    (mode : String) (s : Option Nat) (e : Nat) (out : IndicatorDF)
    (h : get_indicators env df mode s e = .ok out) :
    out.rows.map (fun r => (r.1, r.2.job_accessibility)) =
      df.index.map (fun k => (k, env.job_acc (env.get_data df s e).2.1 mode k)) ∧
    out.rows.map (fun r => (r.1, r.2.greenspace_accessibility)) =
      df.index.map (fun k => (k, env.gsp_acc (env.get_data df s e).2.2 mode k)) := by
  obtain ⟨-, ha, hh, rfl⟩ := get_indicators_eq_ok h
  exact ⟨mkRows_map_key_ja _ _ _ _ _ ha hh, mkRows_map_key_gs _ _ _ _ _ ha hh⟩

/-- Witness for C7: the concrete environment under the bike mode. -/
theorem get_indicators_accessibility_reindexed_witness :
    get_indicators envW dfW "bike" none 0 = .ok ⟨[("ls1", rowW)]⟩ ∧
    ((IndicatorDF.mk [("ls1", rowW)]).rows.map (fun r => (r.1, r.2.job_accessibility)) =
      dfW.index.map (fun k => (k, envW.job_acc (envW.get_data dfW none 0).2.1 "bike" k)) ∧
    (IndicatorDF.mk [("ls1", rowW)]).rows.map
        (fun r => (r.1, r.2.greenspace_accessibility)) =
      dfW.index.map
        (fun k => (k, envW.gsp_acc (envW.get_data dfW none 0).2.2 "bike" k))) :=
  ⟨rfl, get_indicators_accessibility_reindexed envW dfW "bike" none 0
    ⟨[("ls1", rowW)]⟩ rfl⟩

/-- C9: the mode argument influences only the accessibility columns: two successful
calls differing only in the mode agree on the air quality and house price columns. -/
theorem get_indicators_mode_independent_columns (env : Env F J G) (df : ScenarioDF)
    (m1 m2 : String) (s : Option Nat) (e : Nat) (out1 out2 : IndicatorDF)
    (h1 : get_indicators env df m1 s e = .ok out1)
    (h2 : get_indicators env df m2 s e = .ok out2) :
    out1.rows.map (fun r => r.2.air_quality) = out2.rows.map (fun r => r.2.air_quality) ∧
    out1.rows.map (fun r => r.2.house_price) = out2.rows.map (fun r => r.2.house_price) := by
  obtain ⟨-, ha1, hh1, rfl⟩ := get_indicators_eq_ok h1
  obtain ⟨-, ha2, hh2, rfl⟩ := get_indicators_eq_ok h2
  constructor
  · rw [mkRows_map_aq _ _ _ _ _ ha1 hh1 (by simp) (by simp),
      mkRows_map_aq _ _ _ _ _ ha2 hh2 (by simp) (by simp)]
  · rw [mkRows_map_hp _ _ _ _ _ ha1 hh1 (by simp) (by simp),
      mkRows_map_hp _ _ _ _ _ ha2 hh2 (by simp) (by simp)]

/-- Witness for C9: the walk and car modes on the concrete environment. -/
theorem get_indicators_mode_independent_columns_witness :
    get_indicators envW dfW "walk" none 0 = .ok ⟨[("ls1", rowW)]⟩ ∧
    get_indicators envW dfW "car" none 0 = .ok ⟨[("ls1", rowW)]⟩ ∧
    ((IndicatorDF.mk [("ls1", rowW)]).rows.map (fun r => r.2.air_quality) =
      (IndicatorDF.mk [("ls1", rowW)]).rows.map (fun r => r.2.air_quality) ∧
    (IndicatorDF.mk [("ls1", rowW)]).rows.map (fun r => r.2.house_price) =
      (IndicatorDF.mk [("ls1", rowW)]).rows.map (fun r => r.2.house_price)) :=
  ⟨rfl, rfl,
    get_indicators_mode_independent_columns envW dfW "walk" "car" none 0
      ⟨[("ls1", rowW)]⟩ ⟨[("ls1", rowW)]⟩ rfl rfl⟩

end DemolandEngine
